import Mathlib

/-!
Verification development for the audio engine of the minha-banda repository
(src/services/geminiService.ts).  The engine is shallowly embedded: machine
floating point numbers are modelled as real numbers, the Web Audio clock is an
explicit parameter, and the mutable `AudioEngine` object becomes an explicit
state record threaded through the transcribed methods.
-/

noncomputable section

namespace MB

/-- AudioSettings from src/types.ts: detune in cents, karaoke toggle, master
volume, three EQ gains in dB, playback speed. -/
structure AudioSettings where
  detune : ℝ
  vocalRemoval : Bool
  volume : ℝ
  eqLow : ℝ
  eqMid : ℝ
  eqHigh : ℝ
  speed : ℝ

/-- The decoded AudioBuffer: duration in seconds, sample rate in Hz, channel
count (the fields of a Web Audio AudioBuffer the engine reads). -/
structure Buffer where
  duration : ℝ
  sampleRate : ℝ
  numberOfChannels : ℕ

/-- Parameter state of a JunglePitchShifter instance: the constant values held
by the fade gains, the modulation-depth gains, the two delay times, and whether
the looping LFO buffer sources are running (geminiService.ts lines 130-312). -/
structure ShifterState where
  fade1Gain : ℝ
  fade2Gain : ℝ
  mod1Gain : ℝ
  mod2Gain : ℝ
  delay1Time : ℝ
  delay2Time : ℝ
  lfosRunning : Bool

/-- Grain window of the pitch shifter: `bufferTime = 0.100` (line 144). -/
def bufferTime : ℝ := 0.100

/-- State of a freshly constructed JunglePitchShifter: all four GainNodes have
the Web Audio default gain of 1, both delays are set to `bufferTime / 2`
(lines 197-198), and no LFO sources run yet. -/
def jungleInit : ShifterState :=
  { fade1Gain := 1, fade2Gain := 1, mod1Gain := 1, mod2Gain := 1
    delay1Time := bufferTime / 2, delay2Time := bufferTime / 2
    lfosRunning := false }

/-- JunglePitchShifter.setPitch (lines 231-298).  Previous LFOs are stopped;
with `|semitones| < 0.01` the bypass branch pins the parameters (one delay line
at a fixed 0.05 s latency, fades at 1/0, no modulation); otherwise the
modulation depth `(2^(semitones/12) - 1) * bufferTime` is set on both mod
gains, delays re-centre at `bufferTime`, and the looping LFO sources start. -/
def ShifterState.setPitch (st : ShifterState) (semitones : ℝ) : ShifterState :=
  let st0 := { st with lfosRunning := false }
  if |semitones| < 0.01 then
    { st0 with fade1Gain := 1, fade2Gain := 0, mod1Gain := 0, mod2Gain := 0
               delay1Time := 0.05 }
  else
    let pitchFactor := (2 : ℝ) ^ (semitones / 12)   -- pitchRatio in the source
    let modGainValue := (pitchFactor - 1) * bufferTime
    { st0 with mod1Gain := modGainValue, mod2Gain := modGainValue
               delay1Time := bufferTime, delay2Time := bufferTime
               lfosRunning := true }

/-- Signal semantics of the shifter's wiring (constructor lines 178-198) when
the LFO sources are stopped, so delay times and fade gains are the constants
held in the state: the input feeds both delay lines, each delayed copy passes
through its fade gain, and the two fade outputs are summed at the output. -/
def staticOutput (st : ShifterState) (input : ℝ → ℝ) : ℝ → ℝ :=
  fun t => st.fade1Gain * input (t - st.delay1Time)
         + st.fade2Gain * input (t - st.delay2Time)

/-- Natural pitch shift caused by a playback-rate change:
`12 * Math.log2(settings.speed)` (computed identically at lines 432, 565 and
726 of the source). -/
def naturalPitchShift (speed : ℝ) : ℝ := 12 * Real.logb 2 speed

/-- The pitch shift the engine commands to the PitchShifter:
`userDetuneSemis - naturalPitchShift` where `userDetuneSemis = detune / 100`
(computed identically at lines 432-434, 565-567 and 726-728). -/
def finalPitchShift (s : AudioSettings) : ℝ :=
  s.detune / 100 - naturalPitchShift s.speed

/-- State of an `AudioEngine` instance (fields of the class, lines 314-345).
`hasContext` tracks the lazily-created AudioContext, `hasSource`/`hasChain`
whether `sourceNode` (and the processing-chain nodes created with it) are
non-null, `playbackRate` the value currently set on the source node, and
`lastApplied` is a ghost field recording the last `AudioSettings` value whose
parameters were written into the live graph's nodes. -/
structure EngineState where
  hasContext : Bool
  hasSource : Bool
  hasChain : Bool
  isPlaying : Bool
  buffer : Option Buffer
  startTime : ℝ
  pausedAt : ℝ
  currentSpeed : ℝ
  playbackRate : ℝ
  shifter : ShifterState
  lastApplied : Option AudioSettings

/-- A freshly constructed engine (constructor lines 347-349 and the field
initialisers): no context, no nodes, nothing loaded, speed 1. -/
def initState : EngineState :=
  { hasContext := false, hasSource := false, hasChain := false
    isPlaying := false, buffer := none
    startTime := 0, pausedAt := 0, currentSpeed := 1.0, playbackRate := 1.0
    shifter := jungleInit, lastApplied := none }

/-- AudioEngine.stop (lines 697-709): if a source node exists, stop it, clear
`isPlaying`, and if a context exists freeze the position into `pausedAt` as
real elapsed time scaled by the speed. -/
def stop (e : EngineState) (now : ℝ) : EngineState :=
  if e.hasSource then
    { e with isPlaying := false
             pausedAt := if e.hasContext then (now - e.startTime) * e.currentSpeed
                         else e.pausedAt }
  else e

/-- AudioEngine.loadFile (lines 367-379).  `decoded` is the result of the
platform decode step (`none` = decodeAudioData rejected; the error propagates
to the caller, modelled by the `none` in the second component).  The transport
fields are reset before decoding; `this.audioBuffer` is only assigned when the
decode succeeds, so on failure it keeps its previous value. -/
def loadFile (e : EngineState) (decoded : Option Buffer) (now : ℝ) :
    EngineState × Option ℝ :=
  let e0 := { e with hasContext := true }        -- getContext()
  let e1 := stop e0 now
  let e2 := { e1 with pausedAt := 0, startTime := 0, isPlaying := false
                      currentSpeed := 1.0 }
  match decoded with
  | some b => ({ e2 with buffer := some b }, some b.duration)
  | none => (e2, none)

/-- AudioEngine.loadUrl (lines 381-400): identical state behaviour — the
try/catch only logs and rethrows, so a fetch or decode failure leaves the same
state as a loadFile decode failure.  `fetched` is the fetch+decode outcome. -/
def loadUrl (e : EngineState) (fetched : Option Buffer) (now : ℝ) :
    EngineState × Option ℝ :=
  let e0 := { e with hasContext := true }
  let e1 := stop e0 now
  let e2 := { e1 with pausedAt := 0, startTime := 0, isPlaying := false
                      currentSpeed := 1.0 }
  match fetched with
  | some b => ({ e2 with buffer := some b }, some b.duration)
  | none => (e2, none)

/-- AudioEngine.createProcessingChain (lines 550-675), at the state level: a
fresh source node with `playbackRate.value = settings.speed`, a fresh
JunglePitchShifter commanded with the speed-compensated shift, and the full
vocal-removal / EQ / master-gain network parameterised from `settings`
(the signal-level content of the built graph is `liveChain` below). -/
def createProcessingChain (e : EngineState) (s : AudioSettings) : EngineState :=
  let e0 := { e with hasContext := true }        -- getContext()
  match e0.buffer with
  | none => e0
  | some _ =>
    { e0 with hasSource := true
              currentSpeed := s.speed            -- this.currentSpeed = settings.speed
              playbackRate := s.speed            -- sourceNode.playbackRate.value
              shifter := ShifterState.setPitch jungleInit (finalPitchShift s)
              hasChain := true
              lastApplied := some s }

/-- AudioEngine.play (lines 677-695): rebuild the chain, derive the start
offset (explicit offset or the paused position), set the start reference time
`now - startOffset / currentSpeed`, and mark playing if a source exists. -/
def play (e : EngineState) (s : AudioSettings) (off : Option ℝ) (now : ℝ) :
    EngineState :=
  let e0 := { e with hasContext := true }        -- getContext()
  match e0.buffer with
  | none => e0
  | some _ =>
    let e1 := createProcessingChain e0 s
    let startOffset := off.getD e1.pausedAt
    let e2 := { e1 with startTime := now - startOffset / e1.currentSpeed }
    if e2.hasSource then { e2 with isPlaying := true } else e2

/-- AudioEngine.seek (lines 711-719): while playing, stop, set the paused
offset to the target time and restart; while paused, just set the offset. -/
def seek (e : EngineState) (time : ℝ) (s : AudioSettings) (now : ℝ) :
    EngineState :=
  if e.isPlaying then
    let e1 := stop e now
    let e2 := { e1 with pausedAt := time }
    play e2 s none now
  else
    { e with pausedAt := time }

/-- AudioEngine.updateSettings (lines 721-757).  Nothing happens without a
context.  While a source exists and playback is live, the pitch shifter is
re-commanded with the compensated shift and — only when the speed actually
changed — speed and start reference time are recomputed so the position does
not jump.  The EQ / master-volume targets are then written to the live nodes
whenever the chain exists (also while paused), recorded in `lastApplied`. -/
def updateSettings (e : EngineState) (s : AudioSettings) (now : ℝ) :
    EngineState :=
  if e.hasContext then
    let e1 :=
      if e.hasSource && e.isPlaying then
        let ep := { e with shifter := ShifterState.setPitch e.shifter (finalPitchShift s) }
        if s.speed ≠ ep.currentSpeed then
          let currentOffset := (now - ep.startTime) * ep.currentSpeed
          { ep with currentSpeed := s.speed
                    playbackRate := s.speed
                    startTime := now - currentOffset / s.speed }
        else ep
      else e
    if e1.hasChain then { e1 with lastApplied := some s } else e1
  else e

/-- AudioEngine.getCurrentTime (lines 759-767). -/
def getCurrentTime (e : EngineState) (now : ℝ) : ℝ :=
  if e.hasContext = false then 0
  else if e.isPlaying = false then e.pausedAt
  else max 0 ((now - e.startTime) * e.currentSpeed)

/-- The offline render configuration that AudioEngine.exportAudio builds
(lines 406-422): `none` without a decoded buffer, otherwise a 2-channel
OfflineAudioContext of `ceil(duration / speed * sampleRate)` frames at the
buffer's sample rate.  The signal content of the offline graph is
`exportChain` below. -/
structure ExportPlan where
  channels : ℕ
  lengthFrames : ℤ
  sampleRate : ℝ

/-- AudioEngine.exportAudio at the configuration level (lines 406-422). -/
def exportAudio (e : EngineState) (s : AudioSettings) : Option ExportPlan :=
  match e.buffer with
  | none => none
  | some b =>
    let newDuration := b.duration / s.speed
    let lengthFrames := ⌈newDuration * b.sampleRate⌉
    some { channels := 2, lengthFrames := lengthFrames, sampleRate := b.sampleRate }

/-! ### Signal-level semantics of the two graph builders (for the
live/offline equivalence).  Signals of one channel live in an arbitrary real
vector space `V`; nodes that do genuine DSP (the buffer source, the pitch
shifter network, the biquad filters) are abstract transfer functions supplied
by an `AudioModel`, the same model for both contexts.  Gain nodes scale by
their gain value, splitters project channels, merger inputs down-mix stereo
connections to mono (Web Audio speaker down-mix), and the AnalyserNode passes
audio through unchanged — all fixed Web Audio semantics. -/

/-- The `type` values assigned to BiquadFilterNodes in the source. -/
inductive BType where
  | lowpass | highpass | lowshelf | peaking | highshelf
deriving DecidableEq

/-- Abstract DSP transfer functions shared by the live AudioContext and the
OfflineAudioContext: the source node's stereo output as a function of its
playbackRate and detune values, the pitch-shifter network's per-channel
transfer as a function of its parameter state, and the per-channel biquad
transfer as a function of (type, frequency, Q, gain). -/
structure AudioModel (V : Type) [AddCommGroup V] [Module ℝ V] where
  sourceOut : ℝ → ℝ → V × V
  shifterOut : ShifterState → V → V
  bq : BType → ℝ → ℝ → ℝ → V → V

variable {V : Type} [AddCommGroup V] [Module ℝ V]

/-- A stereo biquad processes each channel with the same coefficients. -/
def bqS (M : AudioModel V) (t : BType) (freq q gain : ℝ) (x : V × V) : V × V :=
  (M.bq t freq q gain x.1, M.bq t freq q gain x.2)

/-- The pitch shifter's delay/gain network processes channels independently. -/
def shifterS (M : AudioModel V) (st : ShifterState) (x : V × V) : V × V :=
  (M.shifterOut st x.1, M.shifterOut st x.2)

/-- Web Audio speaker down-mix of a stereo connection into a mono input (the
ChannelMergerNode treats each input as mono): `0.5 * (L + R)`. -/
def monoDown (x : V × V) : V := (1 / 2 : ℝ) • (x.1 + x.2)

/-- The stereo signal AudioEngine.exportAudio delivers to the offline
destination (lines 424-545), transcribed connection by connection.  Gain
nodes keep their source names; a createGain() without an assignment keeps the
Web Audio default gain 1, an unassigned biquad gain keeps the default 0, and
the source node's detune stays at its default 0. -/
def exportChain (M : AudioModel V) (s : AudioSettings) : V × V :=
  let source := M.sourceOut s.speed 0
  let pitchShifter := ShifterState.setPitch jungleInit (finalPitchShift s)
  let nextSource := shifterS M pitchShifter source
  let mainMerger : V × V :=
    if s.vocalRemoval then
      let lowPassOut := bqS M .lowpass 200 0.707 0 nextSource
      let highPassOut := bqS M .highpass 200 0.707 0 nextSource
      -- highSplitter splits highPassOut; leftGain sums +L and invR(-1)·R
      let invROut := (-1 : ℝ) • highPassOut.2
      let leftGainOut := (1 : ℝ) • (highPassOut.1 + invROut)
      -- invLLR -> rightGain (lines 480-483) has no outgoing connection
      let invLLROut := (-1 : ℝ) • leftGainOut
      let rightGainOut := (1 : ℝ) • invLLROut
      let artifactLpfOut := M.bq .lowpass 12000 0.5 0 leftGainOut
      let sideLOut := (1.8 : ℝ) • artifactLpfOut
      let invFilterOut := (-1 : ℝ) • artifactLpfOut
      let sideROut := (1.8 : ℝ) • invFilterOut
      -- merger input 0: lowPass (stereo, down-mixed) + sideL;  input 1:
      -- lowPass (down-mixed) + sideR;  rightGainOut feeds nothing
      (monoDown lowPassOut + sideLOut, monoDown lowPassOut + sideROut)
    else
      -- bypassSplitter: L -> merger input 0, R -> merger input 1
      (nextSource.1, nextSource.2)
  let eqLowOut := bqS M .lowshelf 100 1 s.eqLow mainMerger
  let eqMidOut := bqS M .peaking 1000 1 s.eqMid eqLowOut
  let eqHighOut := bqS M .highshelf 8000 1 s.eqHigh eqMidOut
  let masterGainOut := s.volume • eqHighOut
  masterGainOut

/-- The stereo signal AudioEngine.createProcessingChain delivers to the live
destination (lines 550-675), transcribed connection by connection.  The
AnalyserNode between master gain and destination passes audio through
unchanged (Web Audio semantics), so the destination receives the master-gain
output. -/
def liveChain (M : AudioModel V) (s : AudioSettings) : V × V :=
  let source := M.sourceOut s.speed 0          -- detune.value set to 0 (line 560)
  let pitchShifter := ShifterState.setPitch jungleInit (finalPitchShift s)
  let nextSource := shifterS M pitchShifter source
  let mergerNode : V × V :=
    if s.vocalRemoval then
      let lowPassOut := bqS M .lowpass 200 0.707 0 nextSource
      let highPassOut := bqS M .highpass 200 0.707 0 nextSource
      -- splitterNode splits highPassOut; L (gain 1) and negR (gain -1) sum
      -- into sideSignal (gain 1)
      let LOut := (1 : ℝ) • highPassOut.1
      let negROut := (-1 : ℝ) • highPassOut.2
      let sideSignalOut := (1 : ℝ) • (LOut + negROut)
      let artifactLpfOut := M.bq .lowpass 12000 0.5 0 sideSignalOut
      let sideGainOut := (1.8 : ℝ) • artifactLpfOut
      let inverterOut := (-1 : ℝ) • sideGainOut
      -- merger input 0: lowPass (down-mixed) + sideGain;  input 1: lowPass
      -- (down-mixed) + inverter
      (monoDown lowPassOut + sideGainOut, monoDown lowPassOut + inverterOut)
    else
      (nextSource.1, nextSource.2)
  let eqLowOut := bqS M .lowshelf 100 1 s.eqLow mergerNode
  let eqMidOut := bqS M .peaking 1000 1 s.eqMid eqLowOut
  let eqHighOut := bqS M .highshelf 8000 1 s.eqHigh eqMidOut
  let masterGainOut := s.volume • eqHighOut
  masterGainOut

/-! ### Export PCM conversion (audioBufferToMp3, lines 61-124). -/

/-- The Float32→Int16 sample conversion of audioBufferToMp3 (lines 90-101):
clamp to [-1, 1], then scale negative values by 32768 and non-negative ones by
32767. -/
def convertSample (x : ℝ) : ℝ :=
  let c := if x < -1 then -1 else if x > 1 then 1 else x
  if c < 0 then c * 32768 else c * 32767

/-- The chunk boundaries of the encode loop (lines 104-115): starting at
frame `i`, blocks of `sampleBlockSize = 11520` frames, the last one truncated
at `length`.  Each pair is `(i, min (i + 11520) length)`. -/
def chunkBounds (length i : ℕ) : List (ℕ × ℕ) :=
  if _h : i < length then
    (i, min (i + 11520) length) :: chunkBounds length (i + 11520)
  else []
termination_by length - i
decreasing_by omega

/-! ### Reachable engine states. -/

/-- States reachable from a fresh engine through its public operations (the
decode outcome of a load, the settings, offsets and clock readings are
arbitrary). -/
inductive Reachable : EngineState → Prop
  | init : Reachable initState
  | load (e : EngineState) (d : Option Buffer) (now : ℝ) :
      Reachable e → Reachable (loadFile e d now).1
  | loadU (e : EngineState) (d : Option Buffer) (now : ℝ) :
      Reachable e → Reachable (loadUrl e d now).1
  | playR (e : EngineState) (s : AudioSettings) (off : Option ℝ) (now : ℝ) :
      Reachable e → Reachable (play e s off now)
  | stopR (e : EngineState) (now : ℝ) :
      Reachable e → Reachable (stop e now)
  | seekR (e : EngineState) (t : ℝ) (s : AudioSettings) (now : ℝ) :
      Reachable e → Reachable (seek e t s now)
  | updateR (e : EngineState) (s : AudioSettings) (now : ℝ) :
      Reachable e → Reachable (updateSettings e s now)

/-! ### Test fixtures and the playing-state invariant. -/

/-- Fixture: a 100 s stereo track at 44100 Hz. -/
def trackA : Buffer := { duration := 100, sampleRate := 44100, numberOfChannels := 2 }

/-- Fixture: neutral settings at speed 1. -/
def settings1 : AudioSettings :=
  { detune := 0, vocalRemoval := false, volume := 1
    eqLow := 0, eqMid := 0, eqHigh := 0, speed := 1 }

/-- Fixture: neutral settings at speed 1.5. -/
def settings15 : AudioSettings :=
  { detune := 0, vocalRemoval := false, volume := 1
    eqLow := 0, eqMid := 0, eqHigh := 0, speed := 1.5 }

/-- Fixture: an engine that has loaded `trackA` and is playing it from the
start at speed 1 (real time origin 0). -/
def playingE : EngineState :=
  { hasContext := true, hasSource := true, hasChain := true, isPlaying := true
    buffer := some trackA, startTime := 0, pausedAt := 0
    currentSpeed := 1, playbackRate := 1
    shifter := ShifterState.setPitch jungleInit (finalPitchShift settings1)
    lastApplied := some settings1 }

/-- Invariant carried by every reachable playing state: the live graph exists,
a track is loaded, and `currentSpeed` agrees with both the `speed` of the last
settings applied to the graph and the playbackRate set on the source node. -/
def Inv (e : EngineState) : Prop :=
  e.isPlaying = true →
    e.hasSource = true ∧ e.hasChain = true ∧ e.buffer ≠ none
    ∧ ∃ s, e.lastApplied = some s ∧ e.currentSpeed = s.speed
        ∧ e.playbackRate = s.speed

/-! ## Theorems -/

/-- C1: for every AudioSettings value, the offline export graph built by
exportAudio and the live monitoring graph built by createProcessingChain have
identical node parameters and effective topology — source at
playbackRate = speed, the pitch shifter commanded with the same compensated
shift, the same 200 Hz crossover / phase-cancellation / 12 kHz smoothing /
1.8x side-gain network (or the same splitter-merger bypass), the same EQ gains
and master volume — so for any interpretation of the DSP nodes the signal
delivered to the destination is the same for both graphs. -/
theorem live_export_graph_equiv {V : Type} [AddCommGroup V] [Module ℝ V]
    (M : AudioModel V) (s : AudioSettings) :
    liveChain M s = exportChain M s := by
  unfold liveChain exportChain
  by_cases h : s.vocalRemoval = true <;>
    simp [h, bqS, shifterS, one_smul, smul_smul]

/-- C3: the offline render context created by exportAudio is sized to exactly
`ceil(duration / speed * sampleRate)` frames, two channels at the buffer's
sample rate; a 10 s track at 44100 Hz with speed 2.0 yields 220500 frames. -/
theorem export_length_law (e : EngineState) (s : AudioSettings) (b : Buffer)
    (hb : e.buffer = some b) :
    exportAudio e s
      = some { channels := 2, lengthFrames := ⌈b.duration / s.speed * b.sampleRate⌉
               sampleRate := b.sampleRate }
    ∧ (b.duration = 10 → b.sampleRate = 44100 → s.speed = 2 →
        ⌈b.duration / s.speed * b.sampleRate⌉ = (220500 : ℤ)) := by
  constructor
  · simp [exportAudio, hb]
  · intro h10 h44 h2
    rw [h10, h44, h2]
    have : (10 : ℝ) / 2 * 44100 = ((220500 : ℤ) : ℝ) := by norm_num
    rw [this, Int.ceil_intCast]

/-- C3 witness: a loaded 10 s, 44100 Hz stereo track exported at speed 2.0
produces a 220500-frame offline context. -/
theorem export_length_law_witness :
    exportAudio { initState with buffer := some ⟨10, 44100, 2⟩ }
        { detune := 0, vocalRemoval := false, volume := 1
          eqLow := 0, eqMid := 0, eqHigh := 0, speed := 2 }
      = some { channels := 2, lengthFrames := 220500, sampleRate := 44100 } := by
  have h := export_length_law { initState with buffer := some ⟨10, 44100, 2⟩ }
    { detune := 0, vocalRemoval := false, volume := 1
      eqLow := 0, eqMid := 0, eqHigh := 0, speed := 2 }
    ⟨10, 44100, 2⟩ rfl
  rw [h.1, h.2 rfl rfl rfl]

/-- C9: every floating sample is clamped to [-1, 1] before scaling, so every
converted value lies in [-32768, 32767], and the encode loop hands the encoder
chunks of at most 11520 frames regardless of the buffer length. -/
theorem pcm_conversion_safe :
    (∀ x : ℝ, -32768 ≤ convertSample x ∧ convertSample x ≤ 32767)
    ∧ (∀ (length i : ℕ) (p : ℕ × ℕ), p ∈ chunkBounds length i →
        p.2 - p.1 ≤ 11520) := by
  constructor
  · intro x
    simp only [convertSample]
    split_ifs with h1 h2 h3 h4 h5 <;> constructor <;> nlinarith
  · have key : ∀ (n length i : ℕ), length - i ≤ n →
        ∀ p : ℕ × ℕ, p ∈ chunkBounds length i → p.2 - p.1 ≤ 11520 := by
      intro n
      induction n with
      | zero =>
        intro length i hle p hp
        rw [chunkBounds, dif_neg (by omega)] at hp
        simp at hp
      | succ n ih =>
        intro length i hle p hp
        rw [chunkBounds] at hp
        by_cases h : i < length
        · rw [dif_pos h] at hp
          rcases List.mem_cons.mp hp with hp | hp
          · subst hp; simp; omega
          · exact ih length (i + 11520) (by omega) p hp
        · rw [dif_neg h] at hp
          simp at hp
    intro length i p hp
    exact key (length - i) length i le_rfl p hp

/-- C9 witness: conversion bounds at sample 2 (clamped to 1) and the single
chunk of a 1-frame buffer. -/
theorem pcm_conversion_safe_witness :
    (-32768 ≤ convertSample 2 ∧ convertSample 2 ≤ 32767)
    ∧ ((0, 1) ∈ chunkBounds 1 0 ∧ (0, 1).2 - (0, 1).1 ≤ 11520) := by
  refine ⟨pcm_conversion_safe.1 2, ?_, ?_⟩
  · rw [chunkBounds]; norm_num
  · exact pcm_conversion_safe.2 1 0 (0, 1) (by rw [chunkBounds]; norm_num)

/-- C10: with no decoded buffer, exportAudio returns null without constructing
a graph, and play leaves every engine-state field unchanged (its only effect
is the lazy creation of the AudioContext; with a context already present it is
the identity). -/
theorem unloaded_tolerance (e : EngineState) (s : AudioSettings)
    (off : Option ℝ) (now : ℝ) (hb : e.buffer = none) :
    exportAudio e s = none
    ∧ play e s off now = { e with hasContext := true }
    ∧ (e.hasContext = true → play e s off now = e) := by
  refine ⟨by simp [exportAudio, hb], by simp [play, hb], fun hc => ?_⟩
  simp [play, hb]
  cases e
  simp_all

/-- C10 witness: a fresh engine tolerates export and play before any load. -/
theorem unloaded_tolerance_witness :
    exportAudio initState
        { detune := 0, vocalRemoval := false, volume := 1
          eqLow := 0, eqMid := 0, eqHigh := 0, speed := 1 } = none
    ∧ play initState
        { detune := 0, vocalRemoval := false, volume := 1
          eqLow := 0, eqMid := 0, eqHigh := 0, speed := 1 } none 0
      = { initState with hasContext := true } :=
  ⟨(unloaded_tolerance initState _ none 0 rfl).1,
   (unloaded_tolerance initState _ none 0 rfl).2.1⟩

/-- C2: at each of its three call sites (createProcessingChain on play,
updateSettings during playback, exportAudio) the engine commands the
PitchShifter with `detune/100 - 12*log2(speed)` semitones; at speed 2 with
detune 0 the commanded shift is exactly -12. -/
theorem commanded_shift_law (e : EngineState) (s : AudioSettings) (b : Buffer)
    (off : Option ℝ) (now : ℝ) (hb : e.buffer = some b)
    (hs1 : 1 / 2 ≤ s.speed) (hs2 : s.speed ≤ 2) :
    finalPitchShift s = s.detune / 100 - 12 * Real.logb 2 s.speed
    ∧ (play e s off now).shifter
        = ShifterState.setPitch jungleInit (s.detune / 100 - 12 * Real.logb 2 s.speed)
    ∧ (e.hasContext = true → e.hasSource = true → e.isPlaying = true →
        (updateSettings e s now).shifter
          = ShifterState.setPitch e.shifter (s.detune / 100 - 12 * Real.logb 2 s.speed))
    ∧ (s.speed = 2 → s.detune = 0 → finalPitchShift s = -12) := by
  have hform : finalPitchShift s = s.detune / 100 - 12 * Real.logb 2 s.speed := rfl
  refine ⟨hform, ?_, ?_, ?_⟩
  · simp [play, createProcessingChain, hb, ← hform]
  · intro hc hsrc hpl
    simp only [updateSettings, hc, hsrc, hpl]
    split_ifs <;> simp_all [finalPitchShift, naturalPitchShift]
  · intro h2 h0
    rw [hform, h2, h0, Real.logb_self_eq_one (by norm_num)]
    norm_num

/-- C2 witness: a loaded engine played at speed 2 with detune 0 commands a
shift of -12 semitones. -/
theorem commanded_shift_law_witness :
    (1 : ℝ) / 2 ≤ 2
    ∧ finalPitchShift
        { detune := 0, vocalRemoval := false, volume := 1
          eqLow := 0, eqMid := 0, eqHigh := 0, speed := 2 } = -12 := by
  refine ⟨by norm_num, ?_⟩
  exact (commanded_shift_law { initState with buffer := some trackA }
    { detune := 0, vocalRemoval := false, volume := 1
      eqLow := 0, eqMid := 0, eqHigh := 0, speed := 2 }
    trackA none 0 rfl (by norm_num) (by norm_num)).2.2.2 rfl rfl

/-- C5 counterexample: with detune 0 and speed 1 the bypass path carries the
input through a fixed 0.05 s delay line, so the output is not equal to the
input as a time signal (here the ramp input x at time 1 yields 0.95, not 1);
the claimed input/output equality fails as stated. -/
theorem bypass_transparency_cex :
    ¬ (∀ (input : ℝ → ℝ) (t : ℝ),
        staticOutput (ShifterState.setPitch jungleInit (finalPitchShift settings1))
          input t = input t) := by
  intro h
  have hf : finalPitchShift settings1 = 0 := by
    simp [finalPitchShift, naturalPitchShift, settings1, Real.logb_one]
  have h1 := h (fun x => x) 1
  rw [hf] at h1
  norm_num [staticOutput, ShifterState.setPitch, jungleInit, bufferTime] at h1

/-- C5 amended: with detune 0 and speed 1 (commanded shift 0, magnitude below
0.01) setPitch takes the bypass path — no modulation oscillators run, the
modulation gains are 0, the fade gains are fixed at 1 and 0, one delay line is
fixed at 0.05 s — and the output signal is an exact unit-gain copy of the
input delayed by that fixed 0.05 s latency (no grain artifact). -/
theorem bypass_delayed_copy (st : ShifterState) (s : AudioSettings)
    (hd : s.detune = 0) (hs : s.speed = 1) :
    ShifterState.setPitch st (finalPitchShift s)
      = { st with lfosRunning := false, fade1Gain := 1, fade2Gain := 0
                  mod1Gain := 0, mod2Gain := 0, delay1Time := 0.05 }
    ∧ ∀ (input : ℝ → ℝ) (t : ℝ),
        staticOutput (ShifterState.setPitch st (finalPitchShift s)) input t
          = input (t - 0.05) := by
  have hf : finalPitchShift s = 0 := by
    simp [finalPitchShift, naturalPitchShift, hd, hs, Real.logb_one]
  have hset : ShifterState.setPitch st (finalPitchShift s)
      = { st with lfosRunning := false, fade1Gain := 1, fade2Gain := 0
                  mod1Gain := 0, mod2Gain := 0, delay1Time := 0.05 } := by
    rw [hf]
    simp [ShifterState.setPitch]
    norm_num
  refine ⟨hset, fun input t => ?_⟩
  rw [hset]
  simp [staticOutput]

/-- C5 witness: the bypass output of the ramp input at time 1 is the input
value at time 0.95. -/
theorem bypass_delayed_copy_witness :
    settings1.detune = 0
    ∧ staticOutput (ShifterState.setPitch jungleInit (finalPitchShift settings1))
        (fun x => x) 1 = 1 - 0.05 := by
  refine ⟨rfl, ?_⟩
  exact (bypass_delayed_copy jungleInit settings1 rfl rfl).2 (fun x => x) 1

/-- C7 counterexample: a decode failure while a track is already loaded does
NOT discard the previous track — `this.audioBuffer` is only assigned on a
successful decode, so after the failure the engine still holds the old buffer
and is not in the Unloaded state. -/
theorem decode_failure_cex :
    (loadFile { initState with buffer := some trackA } none 0).1.buffer
      = some trackA
    ∧ some trackA ≠ (none : Option Buffer) := by
  constructor
  · simp [loadFile, stop, initState]
  · simp

/-- C7 amended: if decoding fails during loadFile or loadUrl, the error is
propagated to the caller and the transport is reset (not playing, offset 0,
speed 1), but the previously decoded track is retained in the engine — it is
not left in the Unloaded state. -/
theorem decode_failure_keeps_buffer (e : EngineState) (now : ℝ) :
    (loadFile e none now).2 = none
    ∧ (loadFile e none now).1.buffer = e.buffer
    ∧ (loadFile e none now).1.isPlaying = false
    ∧ (loadFile e none now).1.pausedAt = 0
    ∧ (loadFile e none now).1.startTime = 0
    ∧ (loadFile e none now).1.currentSpeed = 1
    ∧ (loadUrl e none now).2 = none
    ∧ (loadUrl e none now).1.buffer = e.buffer := by
  have hstop : ∀ (x : EngineState) (n : ℝ), (stop x n).buffer = x.buffer := by
    intro x n
    unfold stop
    split <;> rfl
  refine ⟨rfl, ?_, rfl, rfl, rfl, ?_, rfl, ?_⟩ <;>
    norm_num [loadFile, loadUrl, hstop]

/-- C8: seek(t) immediately followed by getCurrentTime returns exactly t, both
while playing (stop, set the paused offset to t, restart from t) and while
paused (just set the paused offset). -/
theorem seek_then_position (e : EngineState) (t : ℝ) (s : AudioSettings)
    (now : ℝ) (hctx : e.hasContext = true) (ht : 0 ≤ t) (hsp : 0 < s.speed)
    (hps : e.isPlaying = true → e.hasSource = true) :
    getCurrentTime (seek e t s now) now = t := by
  unfold seek
  cases hpl : e.isPlaying with
  | false =>
    simp [getCurrentTime, hctx, hpl]
  | true =>
    have hsrc := hps hpl
    simp only [if_true]
    unfold play
    have hb1 : ({ { stop e now with pausedAt := t } with
        hasContext := true } : EngineState).buffer = e.buffer := by
      unfold stop
      split <;> rfl
    cases hb : e.buffer with
    | none =>
      rw [hb] at hb1
      rw [hb1]
      unfold stop
      simp [getCurrentTime, hsrc]
    | some b =>
      rw [hb] at hb1
      rw [hb1]
      unfold createProcessingChain stop
      simp only [hsrc, if_true]
      simp [getCurrentTime, div_mul_cancel₀, ne_of_gt hsp, max_eq_right ht]

/-- C8 witness: seeking the playing fixture engine to 5 s and reading the
position at the same instant returns 5. -/
theorem seek_then_position_witness :
    getCurrentTime (seek playingE 5 settings1 10) 10 = 5 :=
  seek_then_position playingE 5 settings1 10 rfl (by norm_num)
    (by norm_num [settings1]) (fun _ => rfl)

/-- C4: a speed change through updateSettings while playing recomputes the
start reference time as `now - current_offset / new_speed`, so the position
reported by getCurrentTime is continuous across the change, and d further
seconds of real time advance the position by `d * new_speed`. -/
theorem speed_change_continuity (e : EngineState) (s : AudioSettings)
    (now d : ℝ) (hctx : e.hasContext = true) (hsrc : e.hasSource = true)
    (hpl : e.isPlaying = true) (hsp : 0 < s.speed)
    (hpos : 0 ≤ (now - e.startTime) * e.currentSpeed) (hd : 0 ≤ d) :
    (s.speed ≠ e.currentSpeed →
      (updateSettings e s now).startTime
        = now - ((now - e.startTime) * e.currentSpeed) / s.speed)
    ∧ getCurrentTime (updateSettings e s now) now = getCurrentTime e now
    ∧ getCurrentTime (updateSettings e s now) (now + d)
        = getCurrentTime e now + d * s.speed := by
  have hsne : s.speed ≠ 0 := ne_of_gt hsp
  by_cases hne : s.speed = e.currentSpeed
  · -- the speed did not change: the clock fields are untouched
    have hproj : (updateSettings e s now).startTime = e.startTime
        ∧ (updateSettings e s now).currentSpeed = e.currentSpeed
        ∧ (updateSettings e s now).isPlaying = true
        ∧ (updateSettings e s now).hasContext = true := by
      unfold updateSettings
      split_ifs <;> simp_all <;> (try split_ifs <;> simp_all)
    obtain ⟨h1, h2, h3, h4⟩ := hproj
    refine ⟨fun h => absurd hne h, ?_, ?_⟩
    · simp [getCurrentTime, h1, h2, h3, h4, hctx, hpl]
    · simp [getCurrentTime, h1, h2, h3, h4, hctx, hpl]
      rw [← hne] at hpos ⊢
      rw [max_eq_right hpos, max_eq_right (by nlinarith)]
      ring
  · -- the speed changed: startTime is recomputed so the position is continuous
    have hproj : (updateSettings e s now).startTime
          = now - (now - e.startTime) * e.currentSpeed / s.speed
        ∧ (updateSettings e s now).currentSpeed = s.speed
        ∧ (updateSettings e s now).isPlaying = true
        ∧ (updateSettings e s now).hasContext = true := by
      unfold updateSettings
      split_ifs <;> simp_all <;> (try split_ifs <;> simp_all)
    obtain ⟨h1, h2, h3, h4⟩ := hproj
    refine ⟨fun _ => h1, ?_, ?_⟩
    · simp [getCurrentTime, h1, h2, h3, h4, hctx, hpl]
      rw [div_mul_cancel₀ _ hsne]
    · simp [getCurrentTime, h1, h2, h3, h4, hctx, hpl]
      have hinner : (d + (now - e.startTime) * e.currentSpeed / s.speed) * s.speed
            = (now - e.startTime) * e.currentSpeed + d * s.speed := by
        field_simp
        ring
      rw [hinner, max_eq_right hpos,
        max_eq_right (by nlinarith [mul_nonneg hd hsp.le])]

/-- C4 witness: the spec's scenario — playing at speed 1 up to position 4 s,
then switching to speed 1.5 at real time 4, still reports 4 s at that instant
and 7 s after 2 more seconds of real time. -/
theorem speed_change_continuity_witness :
    getCurrentTime (updateSettings playingE settings15 4) 4 = 4
    ∧ getCurrentTime (updateSettings playingE settings15 4) 6 = 7 := by
  have h := speed_change_continuity playingE settings15 4 2 rfl rfl rfl
    (by norm_num [settings15]) (by norm_num [playingE]) (by norm_num)
  have h0 : getCurrentTime playingE 4 = 4 := by
    norm_num [getCurrentTime, playingE]
  have h2 := h.2.2
  rw [h0] at h2
  have e62 : (4 : ℝ) + 2 = 6 := by norm_num
  have e15 : settings15.speed = 1.5 := rfl
  rw [e62, e15] at h2
  norm_num at h2
  exact ⟨h.2.1.trans h0, h2⟩

/-- Helper: a load never leaves the engine playing. -/
lemma loadFile_not_playing (e : EngineState) (d : Option Buffer) (now : ℝ) :
    (loadFile e d now).1.isPlaying = false := by
  cases d <;> rfl

/-- Helper: loadUrl never leaves the engine playing. -/
lemma loadUrl_not_playing (e : EngineState) (d : Option Buffer) (now : ℝ) :
    (loadUrl e d now).1.isPlaying = false := by
  cases d <;> rfl

/-- Helper: play preserves the playing-state invariant. -/
lemma inv_play (e : EngineState) (s : AudioSettings) (off : Option ℝ)
    (now : ℝ) (h : Inv e) : Inv (play e s off now) := by
  unfold play createProcessingChain
  cases hb : e.buffer with
  | none =>
    simp only [hb]
    intro hp
    exact absurd hb (h hp).2.2.1
  | some b =>
    simp only [hb]
    intro _
    exact ⟨rfl, rfl, by simp, s, rfl, rfl, rfl⟩

/-- Helper: stop preserves the playing-state invariant. -/
lemma inv_stop (e : EngineState) (now : ℝ) (h : Inv e) : Inv (stop e now) := by
  unfold stop
  split
  · intro hp
    simp at hp
  · exact h

/-- Helper: seek preserves the playing-state invariant. -/
lemma inv_seek (e : EngineState) (t : ℝ) (s : AudioSettings) (now : ℝ)
    (h : Inv e) : Inv (seek e t s now) := by
  unfold seek
  cases hpl : e.isPlaying with
  | false =>
    simp only [Bool.false_eq_true, if_false]
    intro hp
    exact absurd hp (by simp [hpl])
  | true =>
    simp only [if_true]
    apply inv_play
    intro hp
    exact absurd hp (by simp [stop, (h hpl).1])

/-- Helper: updateSettings preserves the playing-state invariant. -/
lemma inv_update (e : EngineState) (s : AudioSettings) (now : ℝ)
    (h : Inv e) : Inv (updateSettings e s now) := by
  unfold updateSettings
  by_cases hc : e.hasContext = true
  · simp only [hc, if_true]
    cases hpl : e.isPlaying with
    | false =>
      simp only [Bool.and_false, Bool.false_eq_true, if_false]
      split <;> intro hp <;> exact absurd hp (by simp [hpl])
    | true =>
      obtain ⟨hsrc, hch, hbuf, s0, hla, hcs, hpr⟩ := h hpl
      simp only [hsrc, hpl, Bool.and_self, if_true]
      by_cases hne : s.speed ≠ e.currentSpeed
      · simp only [if_pos hne, hch, if_true]
        intro _
        exact ⟨rfl, rfl, hbuf, s, rfl, rfl, rfl⟩
      · simp only [if_neg hne, hch, if_true]
        intro _
        push_neg at hne
        exact ⟨rfl, rfl, hbuf, s, rfl, hne.symm,
          by rw [show ({ e with
              shifter := ShifterState.setPitch e.shifter (finalPitchShift s),
              lastApplied := some s } : EngineState).playbackRate
                = e.playbackRate from rfl, hpr, ← hcs]; exact hne.symm⟩
  · simp only [hc, if_false]
    exact h

/-- Helper: every reachable state satisfies the playing-state invariant. -/
lemma reachable_inv (e : EngineState) (h : Reachable e) : Inv e := by
  induction h with
  | init => intro hp; exact absurd hp (by simp [initState])
  | load e d now _ _ =>
    intro hp
    exact absurd hp (by simp [loadFile_not_playing])
  | loadU e d now _ _ =>
    intro hp
    exact absurd hp (by simp [loadUrl_not_playing])
  | playR e s off now _ ih => exact inv_play e s off now ih
  | stopR e now _ ih => exact inv_stop e now ih
  | seekR e t s now _ ih => exact inv_seek e t s now ih
  | updateR e s now _ ih => exact inv_update e s now ih

/-- C6 counterexample: the invariant fails as stated in a reachable paused
state — load a track, play it at speed 1, stop, then call updateSettings with
speed 1.5 while paused: the new settings are applied to the live graph's
EQ/volume nodes (so they are the last settings applied), but the guarded speed
branch is skipped, leaving currentSpeed at 1 while the applied settings carry
speed 1.5. -/
theorem speed_invariant_cex :
    ¬ (∀ e : EngineState, Reachable e →
        ∀ s : AudioSettings, e.lastApplied = some s → e.currentSpeed = s.speed) := by
  intro h
  have hre : Reachable (updateSettings
      (stop (play (loadFile initState (some trackA) 0).1 settings1 none 0) 0)
      settings15 0) :=
    Reachable.updateR _ _ _ (Reachable.stopR _ _
      (Reachable.playR _ _ _ _ (Reachable.load _ _ _ Reachable.init)))
  have hdiv := h _ hre settings15 rfl
  have hone : (updateSettings
      (stop (play (loadFile initState (some trackA) 0).1 settings1 none 0) 0)
      settings15 0).currentSpeed = 1 := rfl
  rw [hone] at hdiv
  norm_num [settings15] at hdiv

/-- C6 amended: in every reachable state, WHILE PLAYING the engine's
currentSpeed field equals the speed of the last AudioSettings applied to the
live graph (and the playbackRate set on the source node); in paused states
updateSettings deliberately applies only EQ/volume, so the invariant is
restricted to playing states. -/
theorem speed_invariant_playing (e : EngineState) (h : Reachable e)
    (hp : e.isPlaying = true) :
    ∃ s, e.lastApplied = some s ∧ e.currentSpeed = s.speed
      ∧ e.playbackRate = s.speed :=
  (reachable_inv e h hp).2.2.2

/-- C6 witness: the state reached by loading a track and playing it at the
neutral settings is playing, and its speed fields agree with those settings. -/
theorem speed_invariant_playing_witness :
    (play (loadFile initState (some trackA) 0).1 settings1 none 0).isPlaying = true
    ∧ ∃ s, (play (loadFile initState (some trackA) 0).1 settings1 none 0).lastApplied
          = some s
        ∧ (play (loadFile initState (some trackA) 0).1 settings1 none 0).currentSpeed
          = s.speed
        ∧ (play (loadFile initState (some trackA) 0).1 settings1 none 0).playbackRate
          = s.speed :=
  ⟨rfl, speed_invariant_playing _
    (Reachable.playR _ _ _ _ (Reachable.load _ _ _ Reachable.init)) rfl⟩

end MB
